import Mathlib

/-!
Verification development for the reader3 chapter server (`src/server.py`).

The server's core is `build_subsection_content(html, anchor)`: it parses a
chapter's HTML with BeautifulSoup, resolves the anchor to a target node
(by `id`, then by `name`, then by an `a` element with `href="#anchor"`),
promotes the target to its nearest heading ancestor when the target is not
itself a heading, and collects the start node together with its following
siblings up to the section boundary, serializing the collected span.

The HTML document is shallowly embedded as a tree of element/text nodes
(`Node`).  BeautifulSoup's parser is an external library, so parsing is an
abstract parameter `parse : String → List Node`; everything after the parse
is transcribed from the Python source.  A resolved target is represented as
a `Loc`: the target node together with its following siblings and its chain
of ancestors (nearest first), each ancestor paired with its own following
siblings — exactly the context that `find_parent` and `next_siblings`
consult in the source.
-/

/-- An HTML node: an element with a tag name, an attribute list and
children, or a text node.  This models BeautifulSoup's `Tag` and
`NavigableString`. -/
inductive Node where
  | elem (tag : String) (attrs : List (String × String)) (children : List Node)
  | text (s : String)

/-- The tag name of a node, `none` for text nodes; models `getattr(node, "name", None)`
where only `Tag`s carry a string name. -/
def Node.tagName : Node → Option String
  | .elem t _ _ => some t
  | .text _ => none

/-- Attribute lookup on a node; text nodes have no attributes. -/
def Node.getAttr (n : Node) (key : String) : Option String :=
  match n with
  | .elem _ attrs _ => (attrs.find? (fun kv => kv.1 == key)).map (fun kv => kv.2)
  | .text _ => none

/-- The set of heading tag names, from `heading_levels` in `server.py`. -/
def heading_levels : List String := ["h1", "h2", "h3", "h4", "h5", "h6"]

/-- Whether a node is a heading element (`sibling_name in heading_levels`). -/
def is_heading (n : Node) : Bool :=
  match n.tagName with
  | some t => decide (t ∈ heading_levels)
  | none => false

/-- The heading level of a node: `int(node_name[1])` when the tag name is in
`heading_levels` (`h1`..`h6`), otherwise `None`; models `get_heading_level`
in `server.py`, the membership test and digit extraction spelled out per tag. -/
def get_heading_level (node : Node) : Option Nat :=
  match Node.tagName node with
  | some "h1" => some 1
  | some "h2" => some 2
  | some "h3" => some 3
  | some "h4" => some 4
  | some "h5" => some 5
  | some "h6" => some 6
  | _ => none

/-- Serialization of an attribute list, as in BeautifulSoup's `str(tag)`. -/
def serializeAttrs (attrs : List (String × String)) : String :=
  attrs.foldl (fun acc kv => acc ++ " " ++ kv.1 ++ "=\"" ++ kv.2 ++ "\"") ""

mutual

/-- Serialization of a node back to HTML, modelling Python's `str(node)`. -/
def serializeNode : Node → String
  | .text s => s
  | .elem t attrs cs => "<" ++ t ++ serializeAttrs attrs ++ ">" ++ serializeForest cs ++ "</" ++ t ++ ">"

/-- Serialization of a list of sibling nodes in document order. -/
def serializeForest : List Node → String
  | [] => ""
  | n :: rest => serializeNode n ++ serializeForest rest

end

/-- A located node in a parsed document: the node itself, its following
siblings in document order (`next_siblings`), and its ancestors from the
nearest outward, each paired with that ancestor's own following siblings.
This is the context a BeautifulSoup `Tag` carries via its `parent` and
`next_sibling` links. -/
structure Loc where
  target : Node
  nextSibs : List Node
  ancestors : List (Node × List Node)

mutual

/-- Depth-first pre-order search over a forest for the first node satisfying
`p`, returning its `Loc`; models `soup.find(...)`. -/
def findLocForest (p : Node → Bool) : List Node → Option Loc
  | [] => none
  | n :: rest =>
    if p n then some ⟨n, rest, []⟩
    else
      match findLocInside p n rest with
      | some loc => some loc
      | none => findLocForest p rest

/-- Search inside a node `n` whose following siblings are `sibs`; a hit in
`n`'s children gains `n` (with `sibs`) as its farthest new ancestor. -/
def findLocInside (p : Node → Bool) (n : Node) (sibs : List Node) : Option Loc :=
  match n with
  | .text _ => none
  | .elem _ _ cs =>
    match findLocForest p cs with
    | some loc => some ⟨loc.target, loc.nextSibs, loc.ancestors ++ [(n, sibs)]⟩
    | none => none

end

/-- Match for `soup.find(id=anchor)`. -/
def idPred (anchor : String) (n : Node) : Bool := n.getAttr "id" == some anchor

/-- Match for `soup.find(attrs={"name": anchor})` (written with escaped
braces in the source's dict literal). -/
def namePred (anchor : String) (n : Node) : Bool := n.getAttr "name" == some anchor

/-- Match for `soup.find("a", href=f"#(anchor)")`: an `a` element whose
`href` equals `"#" + anchor`. -/
def hrefPred (anchor : String) (n : Node) : Bool :=
  n.tagName == some "a" && n.getAttr "href" == some ("#" ++ anchor)

/-- Anchor resolution, lines 71-77 of `server.py`: try `id`, then `name`,
then the `a href="#anchor"` fallback; first hit wins. -/
def resolveTarget (soup : List Node) (anchor : String) : Option Loc :=
  match findLocForest (idPred anchor) soup with
  | some t => some t
  | none =>
    match findLocForest (namePred anchor) soup with
    | some t => some t
    | none => findLocForest (hrefPred anchor) soup

/-- The sibling-collection loop, lines 96-102 of `server.py`: walk the start
node's following siblings, stopping before the first heading sibling whose
level is `≤ start_level`, or before any heading sibling when `start_level`
is `None`. -/
def collectSiblings (start_level : Option Nat) : List Node → List Node
  | [] => []
  | sib :: rest =>
    match get_heading_level sib with
    | some sibling_level =>
      match start_level with
      | none => []
      | some sl =>
        if sibling_level ≤ sl then []
        else sib :: collectSiblings start_level rest
    | none => sib :: collectSiblings start_level rest

/-- Start-node determination, lines 87-93 of `server.py`: the target itself
when it is a heading; otherwise its nearest heading ancestor
(`target.find_parent(heading_levels)`) when one exists; otherwise the target
with an undefined start level.  Returns the start node, the start level, and
the start node's following siblings. -/
def determineStart (loc : Loc) : Node × Option Nat × List Node :=
  match get_heading_level loc.target with
  | some l => (loc.target, some l, loc.nextSibs)
  | none =>
    match loc.ancestors.find? (fun an => is_heading an.1) with
    | some hn => (hn.1, get_heading_level hn.1, hn.2)
    | none => (loc.target, none, loc.nextSibs)

/-- Lines 70-104 of `build_subsection_content`, after the falsy-anchor
guard: resolve the anchor over the parsed soup, determine the start node and
level, collect the section span and serialize it. -/
def buildSubsectionFromSoup (soup : List Node) (anchor : String) : Option String :=
  match resolveTarget soup anchor with
  | none => none
  | some loc =>
    match determineStart loc with
    | (start, start_level, sibs) =>
      some (serializeForest (start :: collectSiblings start_level sibs))

/-- `build_subsection_content(html, anchor)` of `server.py`.  `parse` stands
for BeautifulSoup's HTML parsing (an external library).  A falsy anchor —
`None` or the empty string (`if not anchor`) — yields `None` before any
parsing happens. -/
def build_subsection_content (parse : String → List Node)
    (html : String) (anchor : Option String) : Option String :=
  match anchor with
  | none => none
  | some a => if a = "" then none else buildSubsectionFromSoup (parse html) a

/-!
The data model of `reader3` as consumed by the server: `ChapterContent`
values in a `Book`'s spine, and the cached loader plus the
`read_chapter` route.
-/

/-- A chapter of a book, the `ChapterContent` dataclass imported from
`reader3`: identifier, source href, title, full HTML content, derived plain
text, and order index. -/
structure ChapterContent where
  id : String
  href : String
  title : String
  content : String
  text : String
  order : Nat

/-- Book metadata as used by the server (title and authors). -/
structure BookMetadata where
  title : String
  authors : List String

/-- A loaded book: metadata plus the spine, the ordered chapter list. -/
structure Book where
  metadata : BookMetadata
  spine : List ChapterContent

/-- The `maxsize=10` bound of the `lru_cache` decorator on `load_book_cached`. -/
def lru_maxsize : Nat := 10

/-- One lookup through `load_book_cached` under its `functools.lru_cache`
wrapper.  The cache is a most-recent-first association list from folder name
to the memoized result (which may be `none`: the function returns `None`
both for a missing `book.pkl` and for a `pickle.load` failure, and
`lru_cache` memoizes whatever value the wrapped function returns).  `fs`
models the loader body: reading and unpickling `book.pkl` for a folder.
Returns the result, the updated cache, and whether the loader body was
invoked (`true` exactly on a cache miss). -/
def load_book_cached (fs : String → Option Book)
    (cache : List (String × Option Book)) (folder_name : String) :
    Option Book × List (String × Option Book) × Bool :=
  match cache.find? (fun e => e.1 == folder_name) with
  | some e => (e.2, e :: cache.eraseP (fun e => e.1 == folder_name), false)
  | none =>
    let result := fs folder_name
    (result, ((folder_name, result) :: cache).take lru_maxsize, true)

/-- `prev_idx` of `read_chapter`, line 132 of `server.py`:
`chapter_index - 1 if chapter_index > 0 else None`. -/
def previous_index (index : Int) : Option Int :=
  if index > 0 then some (index - 1) else none

/-- `next_idx` of `read_chapter`, line 133 of `server.py`:
`chapter_index + 1 if chapter_index < len(book.spine) - 1 else None`. -/
def next_index (index : Int) (len : Nat) : Option Int :=
  if index < (len : Int) - 1 then some (index + 1) else none

/-- The outcome of a chapter-read request: a 404 `HTTPException` for a
missing book or an out-of-range chapter index, or the rendered page context
(current chapter, previous/next indices, and the `is_subsection` flag). -/
inductive ReadOutcome where
  | bookNotFound
  | chapterNotFound
  | page (current_chapter : ChapterContent) (prev_idx : Option Int)
      (next_idx : Option Int) (is_subsection : Bool)

/-- The `read_chapter` route of `server.py` (lines 107-145).  `books`
abstracts the cached loader's value at request time; `parse` is the
BeautifulSoup parser passed through to `build_subsection_content`.  When
subsection extraction succeeds, a fresh `ChapterContent` is constructed with
only `content` replaced, exactly as in lines 121-129; the loaded book is
never modified. -/
def read_chapter (parse : String → List Node) (books : String → Option Book)
    (book_id : String) (chapter_index : Int) (anchor : Option String) : ReadOutcome :=
  match books book_id with
  | none => ReadOutcome.bookNotFound
  | some book =>
    if chapter_index < 0 ∨ chapter_index ≥ (book.spine.length : Int) then
      ReadOutcome.chapterNotFound
    else
      match book.spine.get? chapter_index.toNat with
      | none => ReadOutcome.chapterNotFound
      | some current_chapter =>
        let subsection_content := build_subsection_content parse current_chapter.content anchor
        let chapter_out : ChapterContent :=
          match subsection_content with
          | some sc =>
            { id := current_chapter.id
              href := current_chapter.href
              title := current_chapter.title
              content := sc
              text := current_chapter.text
              order := current_chapter.order }
          | none => current_chapter
        ReadOutcome.page chapter_out (previous_index chapter_index)
          (next_index chapter_index book.spine.length) subsection_content.isSome

/-!
Helper lemmas about the extraction pipeline.
-/

/-- A node has a heading level exactly when it is a heading element. -/
theorem get_heading_level_isSome (n : Node) :
    (get_heading_level n).isSome = is_heading n := by
  cases n with
  | text s => rfl
  | elem t attrs cs =>
    simp only [get_heading_level, is_heading, Node.tagName]
    split <;> simp_all [heading_levels]

/-- With an undefined start level, the collection loop stops before the
first heading sibling of any level. -/
theorem collectSiblings_none (l : List Node) :
    collectSiblings none l = l.takeWhile (fun s => !(is_heading s)) := by
  induction l with
  | nil => rfl
  | cons sib rest ih =>
    have hs := get_heading_level_isSome sib
    cases h : get_heading_level sib with
    | some lv =>
      rw [h] at hs
      simp only [collectSiblings, h, List.takeWhile_cons]
      simp [← hs]
    | none =>
      rw [h] at hs
      simp only [collectSiblings, h, List.takeWhile_cons]
      simp [← hs, ih]

/-- With start level `L`, the collection loop keeps exactly the longest
prefix of siblings in which every heading is strictly deeper than `L`. -/
theorem collectSiblings_some (L : Nat) (l : List Node) :
    collectSiblings (some L) l = l.takeWhile (fun s =>
      match get_heading_level s with
      | some lv => decide (L < lv)
      | none => true) := by
  induction l with
  | nil => rfl
  | cons sib rest ih =>
    cases h : get_heading_level sib with
    | some lv =>
      by_cases hle : lv ≤ L
      · have : ¬ (L < lv) := by omega
        simp [collectSiblings, h, hle, List.takeWhile_cons, this]
      · have : L < lv := by omega
        simp [collectSiblings, h, hle, List.takeWhile_cons, this, ih]
    | none =>
      simp [collectSiblings, h, List.takeWhile_cons, ih]

/-- Characterization of a successful `List.find?`: the hit satisfies the
predicate and everything strictly before it fails it. -/
theorem find?_split {α : Type} (p : α → Bool) :
    ∀ (l : List α) (a : α), l.find? p = some a →
      p a = true ∧ ∃ pre post, l = pre ++ a :: post ∧ ∀ x ∈ pre, p x = false := by
  intro l
  induction l with
  | nil => intro a h; simp at h
  | cons x xs ih =>
    intro a h
    by_cases hx : p x
    · rw [List.find?_cons_of_pos _ hx] at h
      obtain rfl : x = a := by injection h
      exact ⟨hx, [], xs, rfl, by simp⟩
    · rw [List.find?_cons_of_neg _ (by simpa using hx)] at h
      obtain ⟨hpa, pre, post, heq, hpre⟩ := ih a h
      refine ⟨hpa, x :: pre, post, by rw [heq]; rfl, ?_⟩
      intro y hy
      rcases List.mem_cons.mp hy with rfl | hy
      · simpa using hx
      · exact hpre y hy

mutual

/-- A node found by the pre-order search satisfies the search predicate. -/
theorem findLocForest_sat (p : Node → Bool) :
    ∀ (ns : List Node) (loc : Loc), findLocForest p ns = some loc → p loc.target = true
  | [], loc, h => by simp [findLocForest] at h
  | n :: rest, loc, h => by
    rw [findLocForest] at h
    split at h
    · cases h; simp [*]
    · split at h
      · cases h
        exact findLocInside_sat p n rest _ (by assumption)
      · exact findLocForest_sat p rest loc h

/-- A node found inside a subtree satisfies the search predicate. -/
theorem findLocInside_sat (p : Node → Bool) :
    ∀ (n : Node) (sibs : List Node) (loc : Loc),
      findLocInside p n sibs = some loc → p loc.target = true
  | Node.text s, sibs, loc, h => by simp [findLocInside] at h
  | Node.elem t a cs, sibs, loc, h => by
    rw [findLocInside] at h
    split at h
    · rename_i inner heq
      cases h
      simpa using findLocForest_sat p cs inner heq
    · exact absurd h (by simp)

end

/-- When `determineStart` reports a defined start level, the start node is a
heading of exactly that level. -/
theorem determineStart_level (loc : Loc) (st : Node) (sl : Nat) (sibs : List Node)
    (h : determineStart loc = (st, some sl, sibs)) : get_heading_level st = some sl := by
  unfold determineStart at h
  split at h
  · rename_i l heq
    simp only [Prod.mk.injEq] at h
    obtain ⟨rfl, hlvl, rfl⟩ := h
    rw [heq]; exact hlvl
  · split at h
    · simp only [Prod.mk.injEq] at h
      obtain ⟨rfl, hlvl, rfl⟩ := h
      exact hlvl
    · simp only [Prod.mk.injEq] at h
      exact absurd h.2.1 (by simp)

/-!
Concrete documents, books and parsers used by the claim witnesses and
counterexamples.
-/

/-- A chapter HTML fragment: a `div` with `id="x"`, followed by an `h1` and
a `p` — the anchored `div` is not a heading and has no heading ancestor,
but a heading does occur among its following siblings. -/
def exC1 : List Node :=
  [Node.elem "div" [("id", "x")] [],
   Node.elem "h1" [] [Node.text "t"],
   Node.elem "p" [] [Node.text "after"]]

/-- A fragment whose anchored `div` has no heading ancestor and no heading
among its following siblings. -/
def exC1b : List Node :=
  [Node.elem "div" [("id", "x")] [], Node.elem "p" [] [Node.text "tail"]]

/-- The location of the anchored `div` of `exC1b`. -/
def locC1b : Loc := ⟨Node.elem "div" [("id", "x")] [], [Node.elem "p" [] [Node.text "tail"]], []⟩

/-- The `h2 A` heading of the spec's nesting example, carrying the anchor. -/
def exC2H2A : Node := Node.elem "h2" [("id", "a")] [Node.text "A"]

/-- The sibling list of the spec's nesting example: `[h2 A, p, h3 B, p, h2 C]`. -/
def exC2sibs : List Node :=
  [Node.elem "p" [] [Node.text "one"],
   Node.elem "h3" [] [Node.text "B"],
   Node.elem "p" [] [Node.text "two"],
   Node.elem "h2" [] [Node.text "C"]]

/-- The spec's nesting example document. -/
def exC2 : List Node := exC2H2A :: exC2sibs

/-- The location of `h2 A` in `exC2`. -/
def locC2 : Loc := ⟨exC2H2A, exC2sibs, []⟩

/-- A `span` carrying the anchor, nested inside a heading. -/
def exC3span : Node := Node.elem "span" [("id", "t")] [Node.text "S"]

/-- An `h3` heading containing the anchored `span`. -/
def exC3h3 : Node := Node.elem "h3" [] [exC3span]

/-- The text node following the heading. -/
def exC3tail : Node := Node.text "tail"

/-- A document whose anchored node sits inside a heading. -/
def exC3 : List Node := [exC3h3, exC3tail]

/-- The location of the anchored `span` of `exC3`: its nearest (and only)
ancestor is the `h3`, whose own following sibling is the tail text. -/
def locC3 : Loc := ⟨exC3span, [], [(exC3h3, [exC3tail])]⟩

/-- A document where one element carries `name="x"` and a different,
later element carries `id="x"`. -/
def exC4 : List Node :=
  [Node.elem "span" [("name", "x")] [], Node.elem "em" [("id", "x")] []]

/-- The location of the `id="x"` element of `exC4`. -/
def locC4 : Loc := ⟨Node.elem "em" [("id", "x")] [], [], []⟩

/-- A loader whose archive is always missing or undeserializable: the body
of `load_book_cached` returns `None` for every folder. -/
def fsAbsent : String → Option Book := fun _ => none

/-- A concrete chapter. -/
def exChapter : ChapterContent :=
  ⟨"c1", "ch1.xhtml", "Chapter One", "<p>hi</p>", "hi", 0⟩

/-- A concrete one-chapter book. -/
def exBook : Book := ⟨⟨"A Book", ["An Author"]⟩, [exChapter]⟩

/-- A library holding exactly `exBook` under the identifier `bk_data`. -/
def exLibrary : String → Option Book :=
  fun bid => if bid = "bk_data" then some exBook else none

/-- A parser returning an empty soup for every input. -/
def parseNothing : String → List Node := fun _ => []

/-- A parser returning a one-paragraph soup with `id="s"` for every input. -/
def parseP : String → List Node :=
  fun _ => [Node.elem "p" [("id", "s")] [Node.text "hi"]]

/-!
Claim theorems.
-/

/-- Claim C1, counterexample: in `exC1` the anchor `x` resolves to a
non-heading `div` with no heading ancestor, yet the extracted span is the
`div` alone — the loop stops before the `h1` sibling — and not the
serialization of the target plus all of its following siblings. -/
theorem c1_counterexample :
    buildSubsectionFromSoup exC1 "x" = some "<div id=\"x\"></div>" ∧
    buildSubsectionFromSoup exC1 "x" ≠ some (serializeForest exC1) := by
  exact ⟨rfl, by decide⟩

/-- Claim C1, amended: for a resolved target that is not a heading and has
no heading ancestor, the span is the target plus its following siblings up
to, but not including, the first sibling that is a heading element of any
level; only when no following sibling is a heading does the span cover the
entire remainder of the sibling list. -/
theorem c1_no_heading_ancestor_span (soup : List Node) (a : String) (loc : Loc)
    (hres : resolveTarget soup a = some loc)
    (hlev : get_heading_level loc.target = none)
    (hanc : loc.ancestors.find? (fun an => is_heading an.1) = none) :
    buildSubsectionFromSoup soup a =
      some (serializeForest
        (loc.target :: loc.nextSibs.takeWhile (fun s => !(is_heading s)))) := by
  have hds : determineStart loc = (loc.target, none, loc.nextSibs) := by
    unfold determineStart
    rw [hlev, hanc]
  simp only [buildSubsectionFromSoup, hres, hds, collectSiblings_none]

/-- Claim C1 witness: in `exC1b` no following sibling of the anchored `div`
is a heading, and the amended span keeps the whole remainder. -/
theorem c1_witness :
    buildSubsectionFromSoup exC1b "x" =
      some (serializeForest
        (locC1b.target :: locC1b.nextSibs.takeWhile (fun s => !(is_heading s)))) :=
  c1_no_heading_ancestor_span exC1b "x" locC1b rfl rfl rfl

/-- Claim C2: when the anchor resolves (directly or by promotion to a
heading ancestor) to a start node with a defined start level `L`, that start
node is a heading of level `L` and the extracted span is the start node plus
exactly the longest prefix of its following siblings containing no heading
of level `≤ L`; in particular deeper headings (level `> L`) are kept. -/
theorem c2_heading_span (soup : List Node) (a : String) (loc : Loc)
    (st : Node) (L : Nat) (sibs : List Node)
    (hres : resolveTarget soup a = some loc)
    (hdet : determineStart loc = (st, some L, sibs)) :
    get_heading_level st = some L ∧
    buildSubsectionFromSoup soup a =
      some (serializeForest (st :: sibs.takeWhile (fun s =>
        match get_heading_level s with
        | some lv => decide (L < lv)
        | none => true))) := by
  refine ⟨determineStart_level loc st L sibs hdet, ?_⟩
  simp only [buildSubsectionFromSoup, hres, hdet, collectSiblings_some]

/-- Claim C2 witness: the spec's nesting example `[h2 A, p, h3 B, p, h2 C]`
anchored at `h2 A`: the span keeps `p, h3 B, p` (the deeper `h3` included)
and stops before `h2 C`. -/
theorem c2_witness :
    get_heading_level exC2H2A = some 2 ∧
    buildSubsectionFromSoup exC2 "a" =
      some (serializeForest (exC2H2A :: exC2sibs.takeWhile (fun s =>
        match get_heading_level s with
        | some lv => decide (2 < lv)
        | none => true))) :=
  c2_heading_span exC2 "a" locC2 exC2H2A 2 exC2sibs rfl rfl

/-- Claim C3: for a resolved target that is not itself a heading but has a
heading among its ancestors, the start node is the nearest heading ancestor
and the start level is that ancestor's heading level; nearness is witnessed
by every strictly nearer ancestor failing the heading test. -/
theorem c3_heading_ancestor_start (soup : List Node) (a : String) (loc : Loc)
    (h : Node) (hs : List Node)
    (_hres : resolveTarget soup a = some loc)
    (hlev : get_heading_level loc.target = none)
    (hanc : loc.ancestors.find? (fun an => is_heading an.1) = some (h, hs)) :
    determineStart loc = (h, get_heading_level h, hs) ∧
    is_heading h = true ∧
    (get_heading_level h).isSome = true ∧
    ∃ pre post, loc.ancestors = pre ++ (h, hs) :: post ∧
      ∀ x ∈ pre, is_heading x.1 = false := by
  have hfind := find?_split _ loc.ancestors (h, hs) hanc
  refine ⟨?_, ?_, ?_, ?_⟩
  · unfold determineStart
    rw [hlev, hanc]
  · simpa using hfind.1
  · rw [get_heading_level_isSome]
    simpa using hfind.1
  · obtain ⟨_, pre, post, heq, hpre⟩ := hfind
    exact ⟨pre, post, heq, fun x hx => by simpa using hpre x hx⟩

/-- Claim C3 witness: in `exC3` the anchored `span` is promoted to its
enclosing `h3`, whose level becomes the start level. -/
theorem c3_witness :
    determineStart locC3 = (exC3h3, get_heading_level exC3h3, [exC3tail]) ∧
    is_heading exC3h3 = true ∧
    (get_heading_level exC3h3).isSome = true ∧
    ∃ pre post, locC3.ancestors = pre ++ (exC3h3, [exC3tail]) :: post ∧
      ∀ x ∈ pre, is_heading x.1 = false :=
  c3_heading_ancestor_start exC3 "t" locC3 exC3h3 [exC3tail] rfl rfl rfl

/-- Claim C4: anchor resolution tries `id`, then `name`, then an `a` element
with `href = "#" + anchor`, first hit winning: an `id` hit is returned even
when a `name` hit exists, a `name` hit is consulted only when the `id`
search fails, and the `href` fallback only when both fail — and each hit's
target itself carries the matched attribute (for strategy 3, the result is
the `a` element itself). -/
theorem c4_resolution_priority (soup : List Node) (a : String) :
    (∀ loc, findLocForest (idPred a) soup = some loc →
      resolveTarget soup a = some loc ∧ loc.target.getAttr "id" = some a) ∧
    (findLocForest (idPred a) soup = none →
      ∀ loc, findLocForest (namePred a) soup = some loc →
        resolveTarget soup a = some loc ∧ loc.target.getAttr "name" = some a) ∧
    (findLocForest (idPred a) soup = none →
      findLocForest (namePred a) soup = none →
        resolveTarget soup a = findLocForest (hrefPred a) soup ∧
        ∀ loc, findLocForest (hrefPred a) soup = some loc →
          loc.target.tagName = some "a" ∧
          loc.target.getAttr "href" = some ("#" ++ a)) := by
  refine ⟨?_, ?_, ?_⟩
  · intro loc hfound
    refine ⟨by unfold resolveTarget; rw [hfound], ?_⟩
    have := findLocForest_sat _ soup loc hfound
    simpa [idPred] using this
  · intro hid loc hfound
    refine ⟨by unfold resolveTarget; rw [hid, hfound], ?_⟩
    have := findLocForest_sat _ soup loc hfound
    simpa [namePred] using this
  · intro hid hname
    refine ⟨by unfold resolveTarget; rw [hid, hname], ?_⟩
    intro loc hfound
    have := findLocForest_sat _ soup loc hfound
    simpa [hrefPred] using this

/-- Claim C4 witness: in `exC4` an earlier element carries `name="x"` and a
later one carries `id="x"`; resolving `x` returns the `id` match. -/
theorem c4_witness :
    resolveTarget exC4 "x" = some locC4 ∧ locC4.target.getAttr "id" = some "x" :=
  (c4_resolution_priority exC4 "x").1 locC4 rfl

/-- Claim C5, counterexample: with an always-failing loader, the first
lookup of `mybook_data` misses and invokes the loader (third component
`true`), but the second lookup of the same identifier returns the remembered
`none` without invoking the loader again (third component `false`) — the
failure is persisted as a negative cache entry, contrary to the claim. -/
theorem c5_counterexample :
    (load_book_cached fsAbsent [] "mybook_data").1 = none ∧
    (load_book_cached fsAbsent [] "mybook_data").2.2 = true ∧
    (load_book_cached fsAbsent
      (load_book_cached fsAbsent [] "mybook_data").2.1 "mybook_data").1 = none ∧
    (load_book_cached fsAbsent
      (load_book_cached fsAbsent [] "mybook_data").2.1 "mybook_data").2.2 = false :=
  ⟨rfl, rfl, rfl, rfl⟩

/-- Claim C5, amended: `lru_cache` memoizes the `None` result of a failed
load like any other value: after a missing lookup the negative entry is
stored, and a subsequent lookup of the same identifier returns the
remembered absence without invoking the loader (until LRU eviction). -/
theorem c5_negative_result_cached (fs : String → Option Book)
    (cache : List (String × Option Book)) (key : String)
    (hmiss : cache.find? (fun e => e.1 == key) = none)
    (hfail : fs key = none) :
    (load_book_cached fs cache key).1 = none ∧
    (load_book_cached fs cache key).2.2 = true ∧
    (load_book_cached fs (load_book_cached fs cache key).2.1 key).1 = none ∧
    (load_book_cached fs (load_book_cached fs cache key).2.1 key).2.2 = false := by
  have h1 : load_book_cached fs cache key =
      (none, ((key, none) :: cache).take lru_maxsize, true) := by
    unfold load_book_cached
    rw [hmiss, hfail]
  have h2 : (((key, none) :: cache).take lru_maxsize).find?
      (fun e => e.1 == key) = some (key, none) := by
    have : ((key, none) :: cache).take lru_maxsize =
        (key, none) :: cache.take (lru_maxsize - 1) := by
      rfl
    rw [this, List.find?_cons_of_pos _ (by simp)]
  have h3 : load_book_cached fs (((key, none) :: cache).take lru_maxsize) key =
      (none, (key, none) :: (((key, none) :: cache).take lru_maxsize).eraseP
        (fun e => e.1 == key), false) := by
    unfold load_book_cached
    rw [h2]
  rw [h1]
  exact ⟨rfl, rfl, by rw [h3], by rw [h3]⟩

/-- Claim C5 witness for the amended statement, at an empty cache and an
always-failing loader. -/
theorem c5_witness :
    (load_book_cached fsAbsent [] "bk_data").1 = none ∧
    (load_book_cached fsAbsent [] "bk_data").2.2 = true ∧
    (load_book_cached fsAbsent
      (load_book_cached fsAbsent [] "bk_data").2.1 "bk_data").1 = none ∧
    (load_book_cached fsAbsent
      (load_book_cached fsAbsent [] "bk_data").2.1 "bk_data").2.2 = false :=
  c5_negative_result_cached fsAbsent [] "bk_data" rfl rfl

/-- Claim C6: an absent anchor, and an anchor that no resolution strategy
matches, both make subsection extraction return `None` (extraction is a
total function — absence is an optional result, not an exception), and the
caller then serves the chapter's full, unnarrowed content with
`is_subsection = false`. -/
theorem c6_unresolved_anchor_falls_back (parse : String → List Node)
    (books : String → Option Book) (book_id : String) (i : Int)
    (anchor : Option String) (book : Book) (c : ChapterContent)
    (hb : books book_id = some book)
    (hr : ¬(i < 0 ∨ i ≥ (book.spine.length : Int)))
    (hc : book.spine.get? i.toNat = some c)
    (hres : ∀ a, anchor = some a → resolveTarget (parse c.content) a = none) :
    build_subsection_content parse c.content anchor = none ∧
    read_chapter parse books book_id i anchor =
      ReadOutcome.page c (previous_index i) (next_index i book.spine.length) false := by
  have hnone : build_subsection_content parse c.content anchor = none := by
    cases anchor with
    | none => rfl
    | some a =>
      unfold build_subsection_content
      by_cases ha : a = ""
      · simp [ha]
      · simp only [ha, if_false, buildSubsectionFromSoup, hres a rfl]
  refine ⟨hnone, ?_⟩
  simp only [read_chapter, hb]
  rw [if_neg hr]
  simp only [hc, hnone]
  rfl

/-- Claim C6 witness, with a one-chapter book and an anchor that matches
nothing in the (empty) parsed soup. -/
theorem c6_witness :
    build_subsection_content parseNothing exChapter.content (some "zzz") = none ∧
    read_chapter parseNothing exLibrary "bk_data" 0 (some "zzz") =
      ReadOutcome.page exChapter (previous_index 0) (next_index 0 exBook.spine.length) false :=
  c6_unresolved_anchor_falls_back parseNothing exLibrary "bk_data" 0 (some "zzz")
    exBook exChapter rfl (by decide) rfl (by intro a h; cases h; rfl)

/-- Claim C7: `previous_index 0 = none`, `next_index (N-1) N = none`, and
for every interior index `0 < i < N-1` both neighbours are defined and
`next_index (previous_index i) N = some i`. -/
theorem c7_navigation (N : Nat) (i : Int) (h1 : 0 < i) (h2 : i < (N : Int) - 1) :
    previous_index 0 = none ∧
    next_index ((N : Int) - 1) N = none ∧
    (previous_index i).isSome = true ∧
    (next_index i N).isSome = true ∧
    (previous_index i).bind (fun j => next_index j N) = some i := by
  refine ⟨rfl, ?_, ?_, ?_, ?_⟩
  · unfold next_index
    rw [if_neg (by omega)]
  · unfold previous_index
    rw [if_pos h1]
    rfl
  · unfold next_index
    rw [if_pos h2]
    rfl
  · unfold previous_index next_index
    rw [if_pos h1]
    show (if i - 1 < (N : Int) - 1 then some (i - 1 + 1) else none) = some i
    rw [if_pos (by omega)]
    congr 1
    omega

/-- Claim C7 witness at spine length 5 and interior index 2. -/
theorem c7_witness :
    previous_index 0 = none ∧
    next_index (((5 : Nat) : Int) - 1) 5 = none ∧
    (previous_index 2).isSome = true ∧
    (next_index 2 5).isSome = true ∧
    (previous_index 2).bind (fun j => next_index j 5) = some 2 :=
  c7_navigation 5 2 (by decide) (by decide)

/-- Claim C8: with a loaded book, a chapter index that is negative or at
least the spine length yields the 404 chapter-not-found outcome. -/
theorem c8_out_of_range (parse : String → List Node) (books : String → Option Book)
    (book_id : String) (anchor : Option String) (i : Int) (book : Book)
    (hb : books book_id = some book)
    (hrange : i < 0 ∨ i ≥ (book.spine.length : Int)) :
    read_chapter parse books book_id i anchor = ReadOutcome.chapterNotFound := by
  simp only [read_chapter, hb]
  rw [if_pos hrange]

/-- Claim C8 witness at the negative index `-1` of a loaded one-chapter
book. -/
theorem c8_witness :
    read_chapter parseNothing exLibrary "bk_data" (-1) none = ReadOutcome.chapterNotFound :=
  c8_out_of_range parseNothing exLibrary "bk_data" none (-1) exBook rfl (by decide)

/-- Claim C9: when subsection extraction succeeds, the page is rendered
with a chapter value agreeing with the spine's chapter on `id`, `href`,
`title`, `text` and `order`, with only `content` replaced by the subsection
string and `is_subsection = true`; `read_chapter` returns this fresh value
and no updated book state, the cached book being consulted read-only. -/
theorem c9_copy_on_narrow (parse : String → List Node) (books : String → Option Book)
    (book_id : String) (i : Int) (anchor : Option String) (book : Book)
    (c : ChapterContent) (sc : String)
    (hb : books book_id = some book)
    (hr : ¬(i < 0 ∨ i ≥ (book.spine.length : Int)))
    (hc : book.spine.get? i.toNat = some c)
    (hs : build_subsection_content parse c.content anchor = some sc) :
    ∃ cOut : ChapterContent,
      read_chapter parse books book_id i anchor =
        ReadOutcome.page cOut (previous_index i) (next_index i book.spine.length) true ∧
      cOut.id = c.id ∧ cOut.href = c.href ∧ cOut.title = c.title ∧
      cOut.text = c.text ∧ cOut.order = c.order ∧ cOut.content = sc := by
  refine ⟨{ id := c.id, href := c.href, title := c.title, content := sc,
            text := c.text, order := c.order }, ?_, rfl, rfl, rfl, rfl, rfl, rfl⟩
  simp only [read_chapter, hb]
  rw [if_neg hr]
  simp only [hc, hs]
  rfl

/-- Claim C9 witness: a parse on whose soup the anchor `s` extracts a
one-paragraph subsection. -/
theorem c9_witness :
    ∃ cOut : ChapterContent,
      read_chapter parseP exLibrary "bk_data" 0 (some "s") =
        ReadOutcome.page cOut (previous_index 0) (next_index 0 exBook.spine.length) true ∧
      cOut.id = exChapter.id ∧ cOut.href = exChapter.href ∧
      cOut.title = exChapter.title ∧ cOut.text = exChapter.text ∧
      cOut.order = exChapter.order ∧ cOut.content = "<p id=\"s\">hi</p>" :=
  c9_copy_on_narrow parseP exLibrary "bk_data" 0 (some "s") exBook exChapter
    "<p id=\"s\">hi</p>" rfl (by decide) rfl rfl

/-- Claim C10: the empty-string anchor is falsy in Python's `if not anchor`
guard, so subsection extraction returns `None` for it on every chapter HTML,
exactly as for an absent anchor. -/
theorem c10_empty_anchor (parse : String → List Node) (html : String) :
    build_subsection_content parse html (some "") = none := by
  rfl
